/-
Verification of the target-board gesture engine.

This file is a shallow embedding, in Lean 4, of the canvas-based
`TargetBoard` component (src/src/components/TargetBoard/TargetBoard.tsx)
together with the configuration constants (src/src/constant.ts).

Modelling decisions:
* JavaScript numbers are modelled as real numbers (`ℝ`); `Math.sqrt` is
  `Real.sqrt`, `Math.max`/`Math.min` are `max`/`min`.
* Each React state variable of the component becomes a field of `State`.
  Event handlers become functions `State → State`; between two browser
  events React state has settled, so reading the current state inside a
  handler is faithful.
* `window.setTimeout(cb, LONG_PRESS_DURATION)` is modelled by storing the
  data the callback closes over (`LPTimer`) in the `longPressTimer` slot.
  The environment decides when the timer elapses by delivering an
  explicit `Event.timerFire`; a fired or cleared timer never fires again.
  The numeric value of `LONG_PRESS_DURATION` never enters any branch
  condition of the handlers, so it does not appear in the model.
* `uuidv4()` is modelled by a fresh-counter field `nextId`; only
  freshness is relevant to the component's logic.
* JavaScript truthiness: `lastTouchDistance && lastTouchCenter` is falsy
  when the stored distance is the number 0, which the model renders as an
  explicit `d ≠ 0` test; object/string-valued state is truthy exactly
  when non-null, rendered as `Option.isSome` matches.
* `getBoundingClientRect()` is passed to the handlers as the parameter
  `rect` (the canvas' top-left corner in client coordinates).
* The `enclosingCircle` state variable is maintained by a `useEffect` to
  be exactly `calculateEnclosingCircle` of committed dots plus the
  temporary dot; it is modelled as the derived value `enclosingCircleOf`.
* `Date.now()` timestamps are recorded in the `time` fields (passed in as
  the `now` argument of down events) but are never read by any handler.
-/
import Mathlib

namespace Archery

open scoped Classical

noncomputable section

/-- Board side length, from src/src/constant.ts. -/
def boardSize : ℝ := 380

/-- Ring fill colors, from src/src/constant.ts. -/
def ringColors : List String :=
  ["#fff", "#fff", "#000", "#000", "#2196f3",
   "#2196f3", "#d50000", "#d50000", "#ffd600", "#ffd600"]

/-- Outer radius of the outermost ring, from src/src/constant.ts. -/
def initialRingRadius : ℝ := 180

/-- Radial width of each ring, from src/src/constant.ts. -/
def ringGap : ℝ := 18

/-- Screen-space radius of a rendered dot, from src/src/constant.ts. -/
def dotRadius : ℝ := 7

/-- A 2-D point (client, canvas, or board coordinates depending on use). -/
structure Pt where
  x : ℝ
  y : ℝ

/-- The `TransformProps` record of the component: the affine screen-shape
transform `{x, y, scale}`. -/
structure TransformProps where
  x : ℝ
  y : ℝ
  scale : ℝ

/-- The `Dot` record of the component. Ids are modelled as naturals. -/
structure Dot where
  id : ℕ
  x : ℝ
  y : ℝ
  isTemporary : Bool
  isDragging : Bool

/-- The `RingInfo` record of the component. -/
structure RingInfo where
  outerRadius : ℝ
  innerRadius : ℝ
  color : String
  index : ℕ

/-- The enclosing-circle record `{x, y, radius}`. -/
structure Circle where
  x : ℝ
  y : ℝ
  radius : ℝ

/-- `getRings`: ring geometry derived from the constants, one entry per
color, `outerRadius = initialRingRadius - i * ringGap`,
`innerRadius = outerRadius - ringGap`. -/
def getRings : List RingInfo :=
  ringColors.enum.map fun ic =>
    let outerRadius := initialRingRadius - (ic.1 : ℝ) * ringGap
    let innerRadius := outerRadius - ringGap
    { outerRadius := outerRadius, innerRadius := innerRadius,
      color := ic.2, index := ic.1 }

/-- `screenToTarget`: screen (canvas) coordinates to board coordinates,
`((sx - t.x)/t.scale, (sy - t.y)/t.scale)`. -/
def screenToTarget (screenX screenY : ℝ) (t : TransformProps) : Pt :=
  { x := (screenX - t.x) / t.scale, y := (screenY - t.y) / t.scale }

/-- `targetToScreen`: board coordinates to screen (canvas) coordinates,
`(bx*t.scale + t.x, by*t.scale + t.y)`. -/
def targetToScreen (targetX targetY : ℝ) (t : TransformProps) : Pt :=
  { x := targetX * t.scale + t.x, y := targetY * t.scale + t.y }

/-- The search loop of `getRingAtPoint`: return the index of the first
ring `r` in the list with `d ≤ r.outerRadius ∧ d > r.innerRadius`. -/
def findRingAux (d : ℝ) : List RingInfo → ℕ → Option ℕ
  | [], _ => none
  | r :: rs, i =>
      if d ≤ r.outerRadius ∧ d > r.innerRadius then some i
      else findRingAux d rs (i + 1)

/-- `getRingAtPoint`: ring hit test on a board point, by distance from
the board origin. -/
def getRingAtPoint (x y : ℝ) : Option ℕ :=
  findRingAux (Real.sqrt (x * x + y * y)) getRings 0

/-- `getDistance`: Euclidean distance between two points given as four
coordinates. -/
def getDistance (x1 y1 x2 y2 : ℝ) : ℝ :=
  Real.sqrt ((x2 - x1) ^ 2 + (y2 - y1) ^ 2)

/-- `getCenter`: midpoint of two points. -/
def getCenter (x1 y1 x2 y2 : ℝ) : Pt :=
  { x := (x1 + x2) / 2, y := (y1 + y2) / 2 }

/-- `Math.max(...xs)` over a non-empty spread argument list (the model
never applies it to `[]`; the code guards with `allDots.length === 0`). -/
def listMax : List ℝ → ℝ
  | [] => 0
  | a :: rest => rest.foldl max a

/-- `calculateEnclosingCircle`: centroid of the dots together with the
maximum distance from the centroid to any dot; `none` on empty input. -/
def calculateEnclosingCircle (allDots : List Dot) : Option Circle :=
  if allDots.length = 0 then none
  else
    let targetDots := allDots.map fun d => (d.x, d.y)
    let centerX := (targetDots.foldl (fun sum p => sum + p.1) 0) / (targetDots.length : ℝ)
    let centerY := (targetDots.foldl (fun sum p => sum + p.2) 0) / (targetDots.length : ℝ)
    let maxDistance := listMax (targetDots.map fun p =>
      Real.sqrt ((p.1 - centerX) ^ 2 + (p.2 - centerY) ^ 2))
    some { x := centerX, y := centerY, radius := maxDistance }

/-- The data the scheduled long-press `setTimeout` callback closes over:
the canvas coordinates of the down event and the transform current when
the handler ran, plus which handler scheduled it and whether it has
already fired. -/
structure LPTimer where
  ox : ℝ
  oy : ℝ
  capturedTransform : TransformProps
  fromTouch : Bool
  fired : Bool

/-- The `touchStartInfo` record `{x, y, time, longPress}`. -/
structure TouchStartInfo where
  x : ℝ
  y : ℝ
  time : ℝ
  longPress : Bool

/-- The `mouseDownInfo` record `{x, y, screenX, screenY, time, longPress}`. -/
structure MouseDownInfo where
  x : ℝ
  y : ℝ
  screenX : ℝ
  screenY : ℝ
  time : ℝ
  longPress : Bool

/-- The React state of the `TargetBoard` component, one field per
`useState` variable (the derived `enclosingCircle` is `enclosingCircleOf`
below; `nextId` is the uuid freshness counter). -/
structure State where
  transform : TransformProps
  dots : List Dot
  temporaryDot : Option Dot
  highlightedRing : Option ℕ
  lastTouchDistance : Option ℝ
  lastTouchCenter : Option Pt
  longPressTimer : Option LPTimer
  draggedDotId : Option ℕ
  mouseDownInfo : Option MouseDownInfo
  touchStartInfo : Option TouchStartInfo
  wasPinch : Bool
  nextId : ℕ

/-- The derived `enclosingCircle` state variable, kept by the component's
`useEffect` equal to the enclosing circle of committed dots plus the
temporary dot. -/
def enclosingCircleOf (s : State) : Option Circle :=
  calculateEnclosingCircle (s.dots ++ s.temporaryDot.toList)

/-- The initial component state: board centered in the viewport, no dots,
no session in flight. -/
def initialState (width height : ℝ) : State :=
  { transform := { x := width / 2, y := height / 2, scale := 1 }
    dots := []
    temporaryDot := none
    highlightedRing := none
    lastTouchDistance := none
    lastTouchCenter := none
    longPressTimer := none
    draggedDotId := none
    mouseDownInfo := none
    touchStartInfo := none
    wasPinch := false
    nextId := 0 }

/-- `handleTouchStart`: one touch records the origin, clears the pinch
flag and schedules the long-press timer; two touches cancel the timer and
record the pinch baseline distance/midpoint, setting the pinch flag. -/
def handleTouchStart (rect : Pt) (s : State) (touches : List Pt) (now : ℝ) : State :=
  match touches with
  | [t] =>
      let x := t.x - rect.x
      let y := t.y - rect.y
      { s with
        touchStartInfo := some { x := x, y := y, time := now, longPress := false }
        wasPinch := false
        longPressTimer := some
          { ox := x, oy := y, capturedTransform := s.transform,
            fromTouch := true, fired := false } }
  | [t1, t2] =>
      let x1 := t1.x - rect.x
      let y1 := t1.y - rect.y
      let x2 := t2.x - rect.x
      let y2 := t2.y - rect.y
      { s with
        longPressTimer := none
        lastTouchDistance := some (getDistance x1 y1 x2 y2)
        lastTouchCenter := some (getCenter x1 y1 x2 y2)
        wasPinch := true }
  | _ => s

/-- `handleTouchMove`: with one touch and a temporary dot being dragged,
move the temporary dot and re-highlight the ring under it; with two
touches and a truthy (non-null, non-zero) recorded distance and a
recorded midpoint, apply the incremental pinch zoom/pan. -/
def handleTouchMove (rect : Pt) (s : State) (touches : List Pt) : State :=
  match touches with
  | [t] =>
      match s.temporaryDot, s.draggedDotId with
      | some _, some _ =>
          let x := t.x - rect.x
          let y := t.y - rect.y
          let p := screenToTarget x y s.transform
          { s with
            temporaryDot := s.temporaryDot.map fun d => { d with x := p.x, y := p.y }
            highlightedRing := getRingAtPoint p.x p.y }
      | _, _ => s
  | [t1, t2] =>
      match s.lastTouchDistance, s.lastTouchCenter with
      | some ld, some lc =>
          if ld ≠ 0 then
            let x1 := t1.x - rect.x
            let y1 := t1.y - rect.y
            let x2 := t2.x - rect.x
            let y2 := t2.y - rect.y
            let distance := getDistance x1 y1 x2 y2
            let center := getCenter x1 y1 x2 y2
            let scaleChange := distance / ld
            let newScale := max 0.1 (min 5 (s.transform.scale * scaleChange))
            let deltaX := center.x - lc.x
            let deltaY := center.y - lc.y
            { s with
              transform :=
                { x := s.transform.x + deltaX
                  y := s.transform.y + deltaY
                  scale := newScale }
              lastTouchDistance := some distance
              lastTouchCenter := some center }
          else s
      | _, _ => s
  | _ => s

/-- `handleTouchEnd`: always cancel the long-press timer; when the last
touch lifts, either commit the dragged temporary dot, or (when the press
was short and the interaction was not a pinch) append a tap dot at the
recorded origin, then reset the per-interaction session state. -/
def handleTouchEnd (s : State) (touches : List Pt) : State :=
  let s1 := { s with longPressTimer := none }
  match touches with
  | [] =>
      match s1.draggedDotId, s1.temporaryDot with
      | some _, some td =>
          { s1 with
            dots := s1.dots ++ [{ td with isTemporary := false, isDragging := false }]
            temporaryDot := none
            draggedDotId := none
            highlightedRing := none
            lastTouchDistance := none
            lastTouchCenter := none
            touchStartInfo := none
            wasPinch := false }
      | _, _ =>
          match s1.touchStartInfo with
          | some info =>
              if info.longPress = false ∧ s1.wasPinch = false then
                let p := screenToTarget info.x info.y s1.transform
                { s1 with
                  dots := s1.dots ++
                    [{ id := s1.nextId, x := p.x, y := p.y,
                       isTemporary := false, isDragging := false }]
                  nextId := s1.nextId + 1
                  lastTouchDistance := none
                  lastTouchCenter := none
                  touchStartInfo := none
                  wasPinch := false }
              else
                { s1 with
                  lastTouchDistance := none
                  lastTouchCenter := none
                  touchStartInfo := none
                  wasPinch := false }
          | none =>
              { s1 with
                lastTouchDistance := none
                lastTouchCenter := none
                touchStartInfo := none
                wasPinch := false }
  | _ => s1

/-- `handleMouseDown`: left button only; record the origin and schedule
the long-press timer. -/
def handleMouseDown (rect : Pt) (s : State) (button : ℤ) (p : Pt) (now : ℝ) : State :=
  if button ≠ 0 then s
  else
    let x := p.x - rect.x
    let y := p.y - rect.y
    { s with
      mouseDownInfo := some
        { x := x, y := y, screenX := p.x, screenY := p.y,
          time := now, longPress := false }
      longPressTimer := some
        { ox := x, oy := y, capturedTransform := s.transform,
          fromTouch := false, fired := false } }

/-- `handleMouseMove`: with a temporary dot being dragged, move it to the
pointer's board position and re-highlight the ring under it; otherwise do
nothing. -/
def handleMouseMove (rect : Pt) (s : State) (p : Pt) : State :=
  match s.temporaryDot, s.draggedDotId with
  | some _, some _ =>
      let x := p.x - rect.x
      let y := p.y - rect.y
      let q := screenToTarget x y s.transform
      { s with
        temporaryDot := s.temporaryDot.map fun d => { d with x := q.x, y := q.y }
        highlightedRing := getRingAtPoint q.x q.y }
  | _, _ => s

/-- `handleMouseUp`: cancel the timer; commit the dragged temporary dot,
or append a tap dot at the recorded origin when the press was short; then
clear the mouse session record. -/
def handleMouseUp (s : State) : State :=
  let s1 := { s with longPressTimer := none }
  match s1.temporaryDot, s1.draggedDotId with
  | some td, some _ =>
      { s1 with
        dots := s1.dots ++ [{ td with isTemporary := false, isDragging := false }]
        temporaryDot := none
        draggedDotId := none
        highlightedRing := none
        mouseDownInfo := none }
  | _, _ =>
      match s1.mouseDownInfo with
      | some info =>
          if info.longPress = false then
            let p := screenToTarget info.x info.y s1.transform
            { s1 with
              dots := s1.dots ++
                [{ id := s1.nextId, x := p.x, y := p.y,
                   isTemporary := false, isDragging := false }]
              nextId := s1.nextId + 1
              mouseDownInfo := none }
          else { s1 with mouseDownInfo := none }
      | none => { s1 with mouseDownInfo := none }

/-- `handleWheel`: cursor-anchored wheel zoom. Note the code computes the
pivot board point from canvas coordinates (`clientX - rect.x`) but the new
offsets from raw client coordinates (`clientX`), exactly as in the source. -/
def handleWheel (rect : Pt) (s : State) (clientX clientY deltaY : ℝ) : State :=
  let scaleBy : ℝ := 1.1
  let oldScale := s.transform.scale
  let mousePointTo := screenToTarget (clientX - rect.x) (clientY - rect.y) s.transform
  let newScale0 := if deltaY < 0 then oldScale * scaleBy else oldScale / scaleBy
  let newScale := max 0.1 (min 5 newScale0)
  { s with
    transform :=
      { scale := newScale
        x := clientX - mousePointTo.x * newScale
        y := clientY - mousePointTo.y * newScale } }

/-- The scheduled long-press callback firing: create the temporary dot at
the board position of the recorded origin (converted through the captured
transform), mark it dragged, and set the `longPress` flag of the session
record of the scheduling handler. A cleared or already-fired timer does
nothing. -/
def fireLongPress (s : State) : State :=
  match s.longPressTimer with
  | some t =>
      if t.fired then s
      else
        let pos := screenToTarget t.ox t.oy t.capturedTransform
        let nd : Dot :=
          { id := s.nextId, x := pos.x, y := pos.y,
            isTemporary := true, isDragging := true }
        { s with
          temporaryDot := some nd
          draggedDotId := some nd.id
          nextId := s.nextId + 1
          longPressTimer := some { t with fired := true }
          touchStartInfo :=
            if t.fromTouch then
              s.touchStartInfo.map fun i => { i with longPress := true }
            else s.touchStartInfo
          mouseDownInfo :=
            if t.fromTouch then s.mouseDownInfo
            else s.mouseDownInfo.map fun i => { i with longPress := true } }
  | none => s

/-- The raw input events consumed by the component: the six handlers'
browser events plus the long-press timer elapsing. Down events carry the
`Date.now()` timestamp; touch events carry the current touch list. -/
inductive Event where
  | touchStart (touches : List Pt) (now : ℝ)
  | touchMove (touches : List Pt)
  | touchEnd (touches : List Pt)
  | mouseDown (button : ℤ) (p : Pt) (now : ℝ)
  | mouseMove (p : Pt)
  | mouseUp
  | wheel (clientX clientY deltaY : ℝ)
  | timerFire

/-- One event-dispatch step of the component. -/
def step (rect : Pt) (s : State) (e : Event) : State :=
  match e with
  | .touchStart touches now => handleTouchStart rect s touches now
  | .touchMove touches => handleTouchMove rect s touches
  | .touchEnd touches => handleTouchEnd s touches
  | .mouseDown button p now => handleMouseDown rect s button p now
  | .mouseMove p => handleMouseMove rect s p
  | .mouseUp => handleMouseUp s
  | .wheel cx cy dy => handleWheel rect s cx cy dy
  | .timerFire => fireLongPress s

/-- Processing a sequence of events in arrival order. -/
def steps (rect : Pt) (s : State) (evs : List Event) : State :=
  evs.foldl (step rect) s

/-- No interaction is in flight: no temporary dot, no drag, no pending
timer, no recorded down origin, no pinch baseline, pinch flag clear. -/
def IdleSession (s : State) : Prop :=
  s.temporaryDot = none ∧ s.draggedDotId = none ∧ s.longPressTimer = none ∧
  s.touchStartInfo = none ∧ s.mouseDownInfo = none ∧ s.wasPinch = false ∧
  s.lastTouchDistance = none ∧ s.lastTouchCenter = none

/-- The board dot a tap at client point `p0` commits: the recorded canvas
origin converted through the transform, with the next fresh id and both
flags cleared. -/
def tapDotOf (rect : Pt) (s : State) (p0 : Pt) : Dot :=
  { id := s.nextId
    x := (screenToTarget (p0.x - rect.x) (p0.y - rect.y) s.transform).x
    y := (screenToTarget (p0.x - rect.x) (p0.y - rect.y) s.transform).y
    isTemporary := false
    isDragging := false }

/-- C8: converting a screen point to board coordinates and back through
any transform with nonzero scale returns the original point. -/
theorem C8_roundTrip (t : TransformProps) (h : t.scale ≠ 0) (px py : ℝ) :
    targetToScreen (screenToTarget px py t).x (screenToTarget px py t).y t =
      ⟨px, py⟩ := by
  simp only [screenToTarget, targetToScreen, Pt.mk.injEq]
  constructor <;> field_simp

/-- Witness for C8 at the transform `{x := 5, y := 7, scale := 2}` and
screen point `(3, 4)`. -/
theorem C8_roundTrip_witness :
    ({ x := 5, y := 7, scale := 2 } : TransformProps).scale ≠ 0 ∧
    targetToScreen (screenToTarget 3 4 { x := 5, y := 7, scale := 2 }).x
      (screenToTarget 3 4 { x := 5, y := 7, scale := 2 }).y
      { x := 5, y := 7, scale := 2 } = ⟨3, 4⟩ :=
  ⟨by norm_num, C8_roundTrip { x := 5, y := 7, scale := 2 } (by norm_num) 3 4⟩

/-- C7: a two-touch move arriving while the recorded pinch distance is the
number `0` is skipped entirely (the truthiness guard fails), so no division
is evaluated and the whole prior state is preserved unchanged. -/
theorem C7_zeroDistanceGuard (rect : Pt) (s : State)
    (h : s.lastTouchDistance = some 0) (t1 t2 : Pt) :
    step rect s (.touchMove [t1, t2]) = s := by
  cases hc : s.lastTouchCenter with
  | none => simp [step, handleTouchMove, h, hc]
  | some c => simp [step, handleTouchMove, h, hc]

/-- Witness for C7 at a concrete state with recorded distance `0`. -/
theorem C7_zeroDistanceGuard_witness :
    (⟨⟨0, 0, 1⟩, [], none, none, some 0, some ⟨1, 2⟩, none, none, none, none,
        false, 0⟩ : State).lastTouchDistance = some 0 ∧
    step ⟨0, 0⟩
      ⟨⟨0, 0, 1⟩, [], none, none, some 0, some ⟨1, 2⟩, none, none, none, none,
        false, 0⟩ (.touchMove [⟨3, 4⟩, ⟨5, 6⟩]) =
      ⟨⟨0, 0, 1⟩, [], none, none, some 0, some ⟨1, 2⟩, none, none, none, none,
        false, 0⟩ :=
  ⟨rfl, C7_zeroDistanceGuard _ _ rfl _ _⟩

/-- C10: before the long-press timer fires (no temporary dot) a single-
pointer move event is a strict no-op for both mouse and touch, and a
down-move-up sequence within the long-press duration commits the tap dot
at the pointer-down origin, not at the release position. -/
theorem C10_moveBeforeFire :
    (∀ (rect : Pt) (s : State), s.temporaryDot = none → ∀ p : Pt,
        step rect s (.mouseMove p) = s ∧ step rect s (.touchMove [p]) = s) ∧
    (∀ (rect : Pt) (s : State), IdleSession s → ∀ (p0 : Pt) (now : ℝ) (p1 : Pt),
        (steps rect s [.mouseDown 0 p0 now, .mouseMove p1, .mouseUp]).dots =
          s.dots ++ [tapDotOf rect s p0]) := by
  constructor
  · intro rect s h p
    constructor
    · simp [step, handleMouseMove, h]
    · simp [step, handleTouchMove, h]
  · intro rect s hidle p0 now p1
    obtain ⟨h1, h2, h3, h4, h5, h6, h7, h8⟩ := hidle
    simp [steps, step, handleMouseDown, handleMouseMove, handleMouseUp,
      tapDotOf, h1, h2]

/-- Witness for C10 from the initial state of an 800x600 viewport. -/
theorem C10_moveBeforeFire_witness :
    (initialState 800 600).temporaryDot = none ∧
    IdleSession (initialState 800 600) ∧
    step ⟨0, 0⟩ (initialState 800 600) (.mouseMove ⟨9, 9⟩) = initialState 800 600 ∧
    (steps ⟨0, 0⟩ (initialState 800 600)
        [.mouseDown 0 ⟨410, 290⟩ 0, .mouseMove ⟨500, 500⟩, .mouseUp]).dots =
      (initialState 800 600).dots ++
        [tapDotOf ⟨0, 0⟩ (initialState 800 600) ⟨410, 290⟩] :=
  ⟨rfl, ⟨rfl, rfl, rfl, rfl, rfl, rfl, rfl, rfl⟩,
    (C10_moveBeforeFire.1 ⟨0, 0⟩ (initialState 800 600) rfl ⟨9, 9⟩).1,
    C10_moveBeforeFire.2 ⟨0, 0⟩ (initialState 800 600)
      ⟨rfl, rfl, rfl, rfl, rfl, rfl, rfl, rfl⟩ ⟨410, 290⟩ 0 ⟨500, 500⟩⟩

/-- C4: a pointer-down followed by a pointer-up with no timer firing and
no second touch in between commits exactly one non-temporary dot at the
board image of the pointer-down origin, leaves no temporary dot, and
leaves no timer pending — for both the mouse and the touch path. -/
theorem C4_tapCommit (rect : Pt) (s : State) (hidle : IdleSession s)
    (p0 : Pt) (now : ℝ) :
    ((steps rect s [.mouseDown 0 p0 now, .mouseUp]).dots =
        s.dots ++ [tapDotOf rect s p0] ∧
      (steps rect s [.mouseDown 0 p0 now, .mouseUp]).temporaryDot = none ∧
      (steps rect s [.mouseDown 0 p0 now, .mouseUp]).longPressTimer = none ∧
      (steps rect s [.mouseDown 0 p0 now, .mouseUp]).mouseDownInfo = none) ∧
    ((steps rect s [.touchStart [p0] now, .touchEnd []]).dots =
        s.dots ++ [tapDotOf rect s p0] ∧
      (steps rect s [.touchStart [p0] now, .touchEnd []]).temporaryDot = none ∧
      (steps rect s [.touchStart [p0] now, .touchEnd []]).longPressTimer = none ∧
      (steps rect s [.touchStart [p0] now, .touchEnd []]).touchStartInfo = none) := by
  obtain ⟨h1, h2, h3, h4, h5, h6, h7, h8⟩ := hidle
  constructor
  · simp [steps, step, handleMouseDown, handleMouseUp, tapDotOf, h1, h2]
  · simp [steps, step, handleTouchStart, handleTouchEnd, tapDotOf, h1, h2]

/-- Witness for C4 from the initial state of an 800x600 viewport. -/
theorem C4_tapCommit_witness :
    IdleSession (initialState 800 600) ∧
    (steps ⟨0, 0⟩ (initialState 800 600) [.mouseDown 0 ⟨410, 290⟩ 0, .mouseUp]).dots =
      (initialState 800 600).dots ++
        [tapDotOf ⟨0, 0⟩ (initialState 800 600) ⟨410, 290⟩] ∧
    (steps ⟨0, 0⟩ (initialState 800 600) [.touchStart [⟨410, 290⟩] 0, .touchEnd []]).dots =
      (initialState 800 600).dots ++
        [tapDotOf ⟨0, 0⟩ (initialState 800 600) ⟨410, 290⟩] :=
  ⟨⟨rfl, rfl, rfl, rfl, rfl, rfl, rfl, rfl⟩,
    (C4_tapCommit ⟨0, 0⟩ (initialState 800 600)
      ⟨rfl, rfl, rfl, rfl, rfl, rfl, rfl, rfl⟩ ⟨410, 290⟩ 0).1.1,
    (C4_tapCommit ⟨0, 0⟩ (initialState 800 600)
      ⟨rfl, rfl, rfl, rfl, rfl, rfl, rfl, rfl⟩ ⟨410, 290⟩ 0).2.1⟩

/-- C3: holding until the long-press timer fires creates a temporary dot
(`isTemporary = true`, `isDragging = true`) at the board image of the
origin; moving then releasing commits exactly one dot at the final dragged
board position with both flags cleared, clears the temporary dot and
clears the highlighted ring — for both the mouse and the touch path. -/
theorem C3_longPressDragCommit (rect : Pt) (s : State) (hidle : IdleSession s)
    (p0 : Pt) (now : ℝ) (p1 : Pt) :
    ((steps rect s [.mouseDown 0 p0 now, .timerFire]).temporaryDot =
        some { id := s.nextId
               x := (screenToTarget (p0.x - rect.x) (p0.y - rect.y) s.transform).x
               y := (screenToTarget (p0.x - rect.x) (p0.y - rect.y) s.transform).y
               isTemporary := true, isDragging := true } ∧
      (steps rect s [.mouseDown 0 p0 now, .timerFire, .mouseMove p1, .mouseUp]).dots =
        s.dots ++
          [{ id := s.nextId
             x := (screenToTarget (p1.x - rect.x) (p1.y - rect.y) s.transform).x
             y := (screenToTarget (p1.x - rect.x) (p1.y - rect.y) s.transform).y
             isTemporary := false, isDragging := false }] ∧
      (steps rect s [.mouseDown 0 p0 now, .timerFire, .mouseMove p1, .mouseUp]).temporaryDot = none ∧
      (steps rect s [.mouseDown 0 p0 now, .timerFire, .mouseMove p1, .mouseUp]).highlightedRing = none ∧
      (steps rect s [.mouseDown 0 p0 now, .timerFire, .mouseMove p1, .mouseUp]).draggedDotId = none) ∧
    ((steps rect s [.touchStart [p0] now, .timerFire]).temporaryDot =
        some { id := s.nextId
               x := (screenToTarget (p0.x - rect.x) (p0.y - rect.y) s.transform).x
               y := (screenToTarget (p0.x - rect.x) (p0.y - rect.y) s.transform).y
               isTemporary := true, isDragging := true } ∧
      (steps rect s [.touchStart [p0] now, .timerFire, .touchMove [p1], .touchEnd []]).dots =
        s.dots ++
          [{ id := s.nextId
             x := (screenToTarget (p1.x - rect.x) (p1.y - rect.y) s.transform).x
             y := (screenToTarget (p1.x - rect.x) (p1.y - rect.y) s.transform).y
             isTemporary := false, isDragging := false }] ∧
      (steps rect s [.touchStart [p0] now, .timerFire, .touchMove [p1], .touchEnd []]).temporaryDot = none ∧
      (steps rect s [.touchStart [p0] now, .timerFire, .touchMove [p1], .touchEnd []]).highlightedRing = none ∧
      (steps rect s [.touchStart [p0] now, .timerFire, .touchMove [p1], .touchEnd []]).draggedDotId = none) := by
  obtain ⟨h1, h2, h3, h4, h5, h6, h7, h8⟩ := hidle
  constructor
  · simp [steps, step, handleMouseDown, fireLongPress, handleMouseMove,
      handleMouseUp, h1, h2, h5]
  · simp [steps, step, handleTouchStart, fireLongPress, handleTouchMove,
      handleTouchEnd, h1, h2, h4]

/-- Witness for C3 from the initial state, pressing at client point
`(410, 290)` and dragging to `(450, 280)`. -/
theorem C3_longPressDragCommit_witness :
    IdleSession (initialState 800 600) ∧
    (steps ⟨0, 0⟩ (initialState 800 600)
        [.mouseDown 0 ⟨410, 290⟩ 0, .timerFire, .mouseMove ⟨450, 280⟩, .mouseUp]).dots =
      (initialState 800 600).dots ++
        [{ id := (initialState 800 600).nextId
           x := (screenToTarget (450 - (0:ℝ)) (280 - (0:ℝ))
                  (initialState 800 600).transform).x
           y := (screenToTarget (450 - (0:ℝ)) (280 - (0:ℝ))
                  (initialState 800 600).transform).y
           isTemporary := false, isDragging := false }] :=
  ⟨⟨rfl, rfl, rfl, rfl, rfl, rfl, rfl, rfl⟩,
    (C3_longPressDragCommit ⟨0, 0⟩ (initialState 800 600)
      ⟨rfl, rfl, rfl, rfl, rfl, rfl, rfl, rfl⟩ ⟨410, 290⟩ 0 ⟨450, 280⟩).1.2.1⟩

/-- Events other than a final release: anything except `touchEnd` with an
empty remaining-touch list and except `mouseUp`. Only final releases can
append to the committed dot list. -/
def NonCommitEvent : Event → Prop
  | .touchEnd ts => ts ≠ []
  | .mouseUp => False
  | _ => True

/-- Touch-stream events that can occur inside an interaction after it has
been promoted to a pinch: moves, releases, timer expiry, and touch starts
with at least two concurrent touches (a one-touch start cannot occur while
a finger is already down). -/
def ContinuationTouch : Event → Prop
  | .touchMove _ => True
  | .touchEnd _ => True
  | .timerFire => True
  | .touchStart ts _ => 2 ≤ ts.length
  | _ => False

/-- Every event except a final release leaves the committed dot list
unchanged. -/
lemma dots_of_nonCommit (rect : Pt) (s : State) (e : Event)
    (h : NonCommitEvent e) : (step rect s e).dots = s.dots := by
  cases e with
  | touchStart ts now =>
      rcases ts with _ | ⟨a, _ | ⟨b, _ | ⟨c, r⟩⟩⟩ <;>
        simp [step, handleTouchStart]
  | touchMove ts =>
      rcases ts with _ | ⟨a, _ | ⟨b, _ | ⟨c, r⟩⟩⟩ <;>
        simp only [step, handleTouchMove] <;>
        · rcases s.temporaryDot with _ | td <;> rcases s.draggedDotId with _ | di <;>
          rcases hld : s.lastTouchDistance with _ | ld <;>
          rcases hlc : s.lastTouchCenter with _ | lc <;>
          simp [hld, hlc] <;> split <;> rfl
  | touchEnd ts =>
      rcases ts with _ | ⟨a, r⟩
      · exact absurd rfl h
      · simp [step, handleTouchEnd]
  | mouseDown b p now =>
      simp only [step, handleMouseDown]
      split <;> rfl
  | mouseMove p =>
      simp only [step, handleMouseMove]
      rcases s.temporaryDot with _ | td <;> rcases s.draggedDotId with _ | di <;> rfl
  | mouseUp => exact absurd h (by simp [NonCommitEvent])
  | wheel cx cy dy => rfl
  | timerFire =>
      simp only [step, fireLongPress]
      rcases s.longPressTimer with _ | t
      · rfl
      · simp only []
        split <;> rfl

/-- A final touch release appends at most one dot. -/
lemma touchEnd_dots_bound (s : State) :
    (handleTouchEnd s []).dots.length ≤ s.dots.length + 1 := by
  simp only [handleTouchEnd]
  rcases s.draggedDotId with _ | di <;> rcases htd : s.temporaryDot with _ | td <;>
    simp only [htd] <;>
    · rcases s.touchStartInfo with _ | info
      · simp
      · by_cases hc : info.longPress = false ∧ s.wasPinch = false <;> simp [hc]

/-- A mouse release appends at most one dot. -/
lemma mouseUp_dots_bound (s : State) :
    (handleMouseUp s).dots.length ≤ s.dots.length + 1 := by
  simp only [handleMouseUp]
  rcases htd : s.temporaryDot with _ | td <;> rcases s.draggedDotId with _ | di <;>
    simp only [htd] <;>
    · rcases s.mouseDownInfo with _ | info
      · simp
      · by_cases hc : info.longPress = false <;> simp [hc]

/-- After an interaction has been promoted to a pinch with the temporary
dot never created and the timer cancelled, that configuration is stable
under every in-interaction touch event and the dot list never changes. -/
def PinchLocked (D : List Dot) (s : State) : Prop :=
  s.temporaryDot = none ∧ s.draggedDotId = none ∧ s.longPressTimer = none ∧
  s.dots = D ∧ (s.touchStartInfo = none ∨ s.wasPinch = true)

/-- One in-interaction touch event preserves `PinchLocked`. -/
lemma pinchLocked_step (rect : Pt) (D : List Dot) (e : Event)
    (he : ContinuationTouch e) (s : State) (hs : PinchLocked D s) :
    PinchLocked D (step rect s e) := by
  obtain ⟨h1, h2, h3, h4, h5⟩ := hs
  cases e with
  | touchStart ts now =>
      rcases ts with _ | ⟨a, _ | ⟨b, _ | ⟨c, r⟩⟩⟩
      · exact ⟨h1, h2, h3, h4, h5⟩
      · exact absurd he (by simp [ContinuationTouch])
      · exact ⟨h1, h2, rfl, h4, Or.inr rfl⟩
      · exact ⟨h1, h2, h3, h4, h5⟩
  | touchMove ts =>
      rcases ts with _ | ⟨a, _ | ⟨b, _ | ⟨c, r⟩⟩⟩
      · exact ⟨h1, h2, h3, h4, h5⟩
      · simp only [step, handleTouchMove, h1]
        exact ⟨h1, h2, h3, h4, h5⟩
      · simp only [step, handleTouchMove]
        rcases hld : s.lastTouchDistance with _ | ld <;>
          rcases hlc : s.lastTouchCenter with _ | lc <;>
          simp only []
        · exact ⟨h1, h2, h3, h4, h5⟩
        · exact ⟨h1, h2, h3, h4, h5⟩
        · exact ⟨h1, h2, h3, h4, h5⟩
        · split
          · exact ⟨h1, h2, h3, h4, h5⟩
          · exact ⟨h1, h2, h3, h4, h5⟩
      · exact ⟨h1, h2, h3, h4, h5⟩
  | touchEnd ts =>
      rcases ts with _ | ⟨a, r⟩
      · rcases hti : s.touchStartInfo with _ | info
        · simp only [step, handleTouchEnd, h1, h2, hti]
          exact ⟨rfl, rfl, rfl, h4, Or.inl rfl⟩
        · rcases h5 with h5 | h5
          · rw [hti] at h5; cases h5
          · simp only [step, handleTouchEnd, h1, h2, hti, h5]
            rw [if_neg (by simp)]
            exact ⟨rfl, rfl, rfl, h4, Or.inl rfl⟩
      · simp only [step, handleTouchEnd]
        exact ⟨h1, h2, rfl, h4, h5⟩
  | timerFire =>
      simp only [step, fireLongPress, h3]
      exact ⟨h1, h2, h3, h4, h5⟩
  | mouseDown b p now => exact absurd he (by simp [ContinuationTouch])
  | mouseMove p => exact absurd he (by simp [ContinuationTouch])
  | mouseUp => exact absurd he (by simp [ContinuationTouch])
  | wheel cx cy dy => exact absurd he (by simp [ContinuationTouch])

/-- `PinchLocked` is preserved by any sequence of in-interaction touch
events. -/
lemma pinchLocked_steps (rect : Pt) (D : List Dot) (rest : List Event)
    (he : ∀ e ∈ rest, ContinuationTouch e) (s : State)
    (hs : PinchLocked D s) : PinchLocked D (steps rect s rest) := by
  induction rest generalizing s with
  | nil => exact hs
  | cons e rest ih =>
      exact ih (fun x hx => he x (List.mem_cons_of_mem _ hx))
        (step rect s e) (pinchLocked_step rect D e (he e (List.mem_cons_self _ _)) s hs)

/-- C2: an interaction — a sequence of non-final events closed by a final
release — appends at most one dot to the committed list; and when a second
touch arrives while the long-press timer is still pending, the timer is
cancelled, the interaction is marked as a pinch, no temporary dot exists,
and no dot is ever created from that interaction under any subsequent
in-interaction events and release. -/
theorem C2_oneOutcome :
    (∀ (rect : Pt) (s : State) (evs : List Event) (last : Event),
      (∀ e ∈ evs, NonCommitEvent e) →
      (last = Event.touchEnd [] ∨ last = Event.mouseUp) →
      (steps rect s (evs ++ [last])).dots.length ≤ s.dots.length + 1) ∧
    (∀ (rect : Pt) (s : State), IdleSession s →
      ∀ (p : Pt) (now : ℝ) (q1 q2 : Pt) (now2 : ℝ) (rest : List Event),
      (∀ e ∈ rest, ContinuationTouch e) →
      (steps rect (step rect (step rect s (.touchStart [p] now))
          (.touchStart [q1, q2] now2)) rest).longPressTimer = none ∧
      (step rect (step rect s (.touchStart [p] now))
          (.touchStart [q1, q2] now2)).longPressTimer = none ∧
      (step rect (step rect s (.touchStart [p] now))
          (.touchStart [q1, q2] now2)).wasPinch = true ∧
      (steps rect (step rect (step rect s (.touchStart [p] now))
          (.touchStart [q1, q2] now2)) rest).dots = s.dots) := by
  constructor
  · intro rect s evs last hevs hlast
    induction evs generalizing s with
    | nil =>
        rcases hlast with h | h <;> subst h
        · simpa [steps, step] using touchEnd_dots_bound s
        · simpa [steps, step] using mouseUp_dots_bound s
    | cons e evs ih =>
        have hnc := hevs e (List.mem_cons_self _ _)
        have : steps rect s ((e :: evs) ++ [last]) =
            steps rect (step rect s e) (evs ++ [last]) := rfl
        rw [this]
        calc (steps rect (step rect s e) (evs ++ [last])).dots.length
            ≤ (step rect s e).dots.length + 1 :=
              ih (step rect s e) (fun x hx => hevs x (List.mem_cons_of_mem _ hx))
          _ = s.dots.length + 1 := by rw [dots_of_nonCommit rect s e hnc]
  · intro rect s hidle p now q1 q2 now2 rest hrest
    obtain ⟨h1, h2, h3, h4, h5, h6, h7, h8⟩ := hidle
    have hlock : PinchLocked s.dots
        (step rect (step rect s (.touchStart [p] now)) (.touchStart [q1, q2] now2)) := by
      simp only [step, handleTouchStart]
      exact ⟨h1, h2, rfl, rfl, Or.inr rfl⟩
    have hrest' := pinchLocked_steps rect s.dots rest hrest _ hlock
    exact ⟨hrest'.2.2.1, hlock.2.2.1, by
        simp only [step, handleTouchStart], hrest'.2.2.2.1⟩

/-- Witness for C2: a tap interaction from the initial state appends one
dot, and a pinch promotion with a pinch-move and release never creates a
dot. -/
theorem C2_oneOutcome_witness :
    ((∀ e ∈ ([] : List Event), NonCommitEvent e) ∧
      (Event.touchEnd [] = Event.touchEnd [] ∨ Event.touchEnd [] = Event.mouseUp) ∧
      (steps ⟨0, 0⟩ (initialState 800 600) ([] ++ [Event.touchEnd []])).dots.length ≤
        (initialState 800 600).dots.length + 1) ∧
    (IdleSession (initialState 800 600) ∧
      (∀ e ∈ [Event.touchMove [⟨1, 1⟩, ⟨9, 9⟩], Event.touchEnd []], ContinuationTouch e) ∧
      (steps ⟨0, 0⟩ (step ⟨0, 0⟩ (step ⟨0, 0⟩ (initialState 800 600)
          (.touchStart [⟨4, 4⟩] 0)) (.touchStart [⟨2, 2⟩, ⟨8, 8⟩] 1))
          [Event.touchMove [⟨1, 1⟩, ⟨9, 9⟩], Event.touchEnd []]).dots =
        (initialState 800 600).dots) :=
  ⟨⟨by simp, Or.inl rfl,
    C2_oneOutcome.1 ⟨0, 0⟩ (initialState 800 600) [] (Event.touchEnd [])
      (by simp) (Or.inl rfl)⟩,
   ⟨⟨rfl, rfl, rfl, rfl, rfl, rfl, rfl, rfl⟩,
    by intro e he; fin_cases he <;> simp [ContinuationTouch],
    (C2_oneOutcome.2 ⟨0, 0⟩ (initialState 800 600)
      ⟨rfl, rfl, rfl, rfl, rfl, rfl, rfl, rfl⟩ ⟨4, 4⟩ 0 ⟨2, 2⟩ ⟨8, 8⟩ 1
      [Event.touchMove [⟨1, 1⟩, ⟨9, 9⟩], Event.touchEnd []]
      (by intro e he; fin_cases he <;> simp [ContinuationTouch])).2.2.2⟩⟩

/-- Every single event keeps the scale inside `[0.1, 5]`: zooms clamp
into the interval and every other handler leaves the scale unchanged. -/
lemma step_scale_mem (rect : Pt) (s : State) (e : Event)
    (h : s.transform.scale ∈ Set.Icc (0.1 : ℝ) 5) :
    (step rect s e).transform.scale ∈ Set.Icc (0.1 : ℝ) 5 := by
  have hclamp : ∀ z : ℝ, max 0.1 (min 5 z) ∈ Set.Icc (0.1 : ℝ) 5 := by
    intro z
    exact ⟨le_max_left _ _, max_le (by norm_num) (min_le_left _ _)⟩
  cases e with
  | touchStart ts now =>
      rcases ts with _ | ⟨a, _ | ⟨b, _ | ⟨c, r⟩⟩⟩ <;> simpa [step, handleTouchStart]
  | touchMove ts =>
      rcases ts with _ | ⟨a, _ | ⟨b, _ | ⟨c, r⟩⟩⟩
      · exact h
      · simp only [step, handleTouchMove]
        rcases htd : s.temporaryDot with _ | td <;>
          rcases hdi : s.draggedDotId with _ | di <;>
          simp only [htd, hdi] <;> exact h
      · simp only [step, handleTouchMove]
        rcases hld : s.lastTouchDistance with _ | ld <;>
          rcases hlc : s.lastTouchCenter with _ | lc <;>
          simp only [hld, hlc]
        · exact h
        · exact h
        · exact h
        · split
          · exact hclamp _
          · exact h
      · exact h
  | touchEnd ts =>
      rcases ts with _ | ⟨a, r⟩
      · simp only [step, handleTouchEnd]
        rcases hdi : s.draggedDotId with _ | di <;>
          rcases htd : s.temporaryDot with _ | td <;>
          simp only [hdi, htd] <;>
          first
          | exact h
          | (rcases hti : s.touchStartInfo with _ | info <;> simp only [hti]
             · exact h
             · by_cases hc : info.longPress = false ∧ s.wasPinch = false
               · rw [if_pos hc]; exact h
               · rw [if_neg hc]; exact h)
      · exact h
  | mouseDown b p now =>
      simp only [step, handleMouseDown]
      split
      · exact h
      · exact h
  | mouseMove p =>
      simp only [step, handleMouseMove]
      rcases htd : s.temporaryDot with _ | td <;>
        rcases hdi : s.draggedDotId with _ | di <;>
        simp only [htd, hdi] <;> exact h
  | mouseUp =>
      simp only [step, handleMouseUp]
      rcases htd : s.temporaryDot with _ | td <;>
        rcases hdi : s.draggedDotId with _ | di <;>
        simp only [htd, hdi] <;>
        first
        | exact h
        | (rcases hmi : s.mouseDownInfo with _ | info <;> simp only [hmi]
           · exact h
           · by_cases hc : info.longPress = false
             · rw [if_pos hc]; exact h
             · rw [if_neg hc]; exact h)
  | wheel cx cy dy => exact hclamp _
  | timerFire =>
      simp only [step, fireLongPress]
      rcases s.longPressTimer with _ | t
      · exact h
      · simp only []
        split <;> exact h

/-- The scale stays inside `[0.1, 5]` along any event sequence. -/
lemma steps_scale_mem (rect : Pt) (s : State) (evs : List Event)
    (h : s.transform.scale ∈ Set.Icc (0.1 : ℝ) 5) :
    (steps rect s evs).transform.scale ∈ Set.Icc (0.1 : ℝ) 5 := by
  induction evs generalizing s with
  | nil => exact h
  | cons e evs ih => exact ih (step rect s e) (step_scale_mem rect s e h)

/-- C9: from the initial transform (scale 1), after any sequence of
events — wheel zooms, pinch moves, pans, taps, drags — the scale lies in
`[0.1, 5]`; and a pure pan step (a pinch move whose two-finger distance
equals the recorded one, so only the midpoint moved) leaves the scale
exactly unchanged. -/
theorem C9_scaleClamped :
    (∀ (rect : Pt) (w h : ℝ) (evs : List Event),
      (steps rect (initialState w h) evs).transform.scale ∈ Set.Icc (0.1 : ℝ) 5) ∧
    (∀ (rect : Pt) (s : State) (t1 t2 : Pt) (lc : Pt),
      s.transform.scale ∈ Set.Icc (0.1 : ℝ) 5 →
      s.lastTouchCenter = some lc →
      s.lastTouchDistance =
        some (getDistance (t1.x - rect.x) (t1.y - rect.y) (t2.x - rect.x) (t2.y - rect.y)) →
      getDistance (t1.x - rect.x) (t1.y - rect.y) (t2.x - rect.x) (t2.y - rect.y) ≠ 0 →
      (step rect s (.touchMove [t1, t2])).transform.scale = s.transform.scale) := by
  constructor
  · intro rect w h evs
    refine steps_scale_mem rect (initialState w h) evs ?_
    constructor <;> norm_num [initialState]
  · intro rect s t1 t2 lc hmem hlc hld hne
    simp only [step, handleTouchMove, hld, hlc, if_pos hne]
    simp only [div_self hne, mul_one]
    rw [min_eq_right hmem.2, max_eq_right hmem.1]

/-- Witness for C9: the empty event sequence from an 800x600 viewport,
and a concrete pure-pan pinch step that keeps the scale at 1. -/
theorem C9_scaleClamped_witness :
    (steps ⟨0, 0⟩ (initialState 800 600) []).transform.scale ∈ Set.Icc (0.1 : ℝ) 5 ∧
    ((⟨⟨0, 0, 1⟩, [], none, none,
        some (getDistance (100 - 0) (0 - 0) (200 - 0) (0 - 0)), some ⟨50, 0⟩,
        none, none, none, none, true, 0⟩ : State).transform.scale ∈
          Set.Icc (0.1 : ℝ) 5 ∧
      getDistance ((100:ℝ) - 0) ((0:ℝ) - 0) ((200:ℝ) - 0) ((0:ℝ) - 0) ≠ 0 ∧
      (step ⟨0, 0⟩
        ⟨⟨0, 0, 1⟩, [], none, none,
          some (getDistance (100 - 0) (0 - 0) (200 - 0) (0 - 0)), some ⟨50, 0⟩,
          none, none, none, none, true, 0⟩
        (.touchMove [⟨100, 0⟩, ⟨200, 0⟩])).transform.scale =
        (⟨⟨0, 0, 1⟩, [], none, none,
          some (getDistance (100 - 0) (0 - 0) (200 - 0) (0 - 0)), some ⟨50, 0⟩,
          none, none, none, none, true, 0⟩ : State).transform.scale) := by
  have hd : getDistance ((100:ℝ) - 0) ((0:ℝ) - 0) ((200:ℝ) - 0) ((0:ℝ) - 0) ≠ 0 := by
    simp only [getDistance]
    rw [Real.sqrt_ne_zero']
    norm_num
  exact ⟨C9_scaleClamped.1 ⟨0, 0⟩ 800 600 [],
    ⟨by constructor <;> norm_num, hd,
      C9_scaleClamped.2 ⟨0, 0⟩ _ ⟨100, 0⟩ ⟨200, 0⟩ ⟨50, 0⟩
        (by constructor <;> norm_num) rfl rfl hd⟩⟩

/-- The seed of a `max` fold is bounded by the fold. -/
lemma le_foldl_max_init (l : List ℝ) (a : ℝ) : a ≤ l.foldl max a := by
  induction l generalizing a with
  | nil => exact le_refl a
  | cons b l ih => exact le_trans (le_max_left a b) (ih (max a b))

/-- Every member of the list is bounded by the `max` fold. -/
lemma le_foldl_max_mem (l : List ℝ) (a x : ℝ) (h : x ∈ l) : x ≤ l.foldl max a := by
  induction l generalizing a with
  | nil => cases h
  | cons b l ih =>
      rcases List.mem_cons.mp h with h | h
      · subst h
        exact le_trans (le_max_right a x) (le_foldl_max_init l (max a x))
      · exact ih (max a b) h

/-- Every member of a list is bounded by `listMax`. -/
lemma le_listMax {l : List ℝ} {x : ℝ} (h : x ∈ l) : x ≤ listMax l := by
  cases l with
  | nil => cases h
  | cons a rest =>
      rcases List.mem_cons.mp h with h | h
      · subst h; exact le_foldl_max_init rest x
      · exact le_foldl_max_mem rest a x h

/-- A `max` fold equals its seed or some member of the list. -/
lemma foldl_max_cases (l : List ℝ) (a : ℝ) : l.foldl max a = a ∨ l.foldl max a ∈ l := by
  induction l generalizing a with
  | nil => exact Or.inl rfl
  | cons b l ih =>
      rcases ih (max a b) with h | h
      · rcases max_choice a b with hm | hm
        · exact Or.inl (h.trans hm)
        · exact Or.inr (List.mem_cons.mpr (Or.inl (h.trans hm)))
      · exact Or.inr (List.mem_cons.mpr (Or.inr h))

/-- `listMax` of a non-empty list is attained by a member. -/
lemma listMax_mem {l : List ℝ} (h : l ≠ []) : listMax l ∈ l := by
  cases l with
  | nil => exact absurd rfl h
  | cons a rest =>
      rcases foldl_max_cases rest a with hc | hc
      · exact List.mem_cons.mpr (Or.inl hc)
      · exact List.mem_cons.mpr (Or.inr hc)

/-- A running-sum fold equals the seed plus the mapped sum. -/
lemma foldl_add_eq_sum (l : List (ℝ × ℝ)) (f : ℝ × ℝ → ℝ) (a : ℝ) :
    l.foldl (fun sum p => sum + f p) a = a + (l.map f).sum := by
  induction l generalizing a with
  | nil => simp
  | cons b l ih =>
      simp only [List.foldl_cons, List.map_cons, List.sum_cons]
      rw [ih (a + f b)]
      ring

/-- On a non-empty dot list the enclosing circle is the centroid together
with the maximum centroid-to-dot distance, with the folds of the source
rewritten as sums over the dot list. -/
lemma calculateEnclosingCircle_eq (l : List Dot) (hl : l ≠ []) :
    calculateEnclosingCircle l = some
      { x := (l.map fun d => d.x).sum / (l.length : ℝ)
        y := (l.map fun d => d.y).sum / (l.length : ℝ)
        radius := listMax (l.map fun d =>
          Real.sqrt ((d.x - (l.map fun d => d.x).sum / (l.length : ℝ)) ^ 2 +
            (d.y - (l.map fun d => d.y).sum / (l.length : ℝ)) ^ 2)) } := by
  have hlen : l.length ≠ 0 := fun hc => hl (List.length_eq_zero.mp hc)
  simp only [calculateEnclosingCircle, List.length_map]
  rw [if_neg hlen]
  rw [foldl_add_eq_sum, foldl_add_eq_sum, zero_add, zero_add,
    List.map_map, List.map_map, List.map_map]
  rfl

/-- C5: the enclosing circle of no dots is `none`; of a single dot it is
that dot with radius 0; and for any non-empty dot list it is the centroid
together with the maximum distance from the centroid to a dot, so every
dot lies within the returned radius of the returned center and the radius
is attained by some dot. -/
theorem C5_enclosingCircle :
    calculateEnclosingCircle [] = none ∧
    (∀ p : Dot, calculateEnclosingCircle [p] = some ⟨p.x, p.y, 0⟩) ∧
    (∀ l : List Dot, l ≠ [] → ∃ c : Circle,
      calculateEnclosingCircle l = some c ∧
      c.x = (l.map fun d => d.x).sum / (l.length : ℝ) ∧
      c.y = (l.map fun d => d.y).sum / (l.length : ℝ) ∧
      (∀ d ∈ l, Real.sqrt ((d.x - c.x) ^ 2 + (d.y - c.y) ^ 2) ≤ c.radius) ∧
      (∃ d ∈ l, Real.sqrt ((d.x - c.x) ^ 2 + (d.y - c.y) ^ 2) = c.radius)) := by
  refine ⟨rfl, ?_, ?_⟩
  · intro p
    simp only [calculateEnclosingCircle, List.length_cons, List.length_nil]
    rw [if_neg (by norm_num)]
    simp only [List.map_cons, List.map_nil, List.foldl_cons, List.foldl_nil,
      listMax, Option.some.injEq, Circle.mk.injEq]
    norm_num
  · intro l hl
    refine ⟨_, calculateEnclosingCircle_eq l hl, rfl, rfl, ?_, ?_⟩
    · intro d hd
      exact le_listMax (List.mem_map.mpr ⟨d, hd, rfl⟩)
    · have hne : (l.map fun d : Dot =>
          Real.sqrt ((d.x - (l.map fun d => d.x).sum / (l.length : ℝ)) ^ 2 +
            (d.y - (l.map fun d => d.y).sum / (l.length : ℝ)) ^ 2)) ≠ [] := by
        simpa using hl
      rcases List.mem_map.mp (listMax_mem hne) with ⟨d, hd, hde⟩
      exact ⟨d, hd, hde⟩

/-- Witness for C5 at the three dots of Scenario E, placed at `(0, 0)`,
`(10, 0)` and `(0, 10)`. -/
theorem C5_enclosingCircle_witness :
    ([⟨0, 0, 0, false, false⟩, ⟨1, 10, 0, false, false⟩,
        ⟨2, 0, 10, false, false⟩] : List Dot) ≠ [] ∧
    (∃ c : Circle,
      calculateEnclosingCircle
        [⟨0, 0, 0, false, false⟩, ⟨1, 10, 0, false, false⟩,
         ⟨2, 0, 10, false, false⟩] = some c ∧
      c.x = (([⟨0, 0, 0, false, false⟩, ⟨1, 10, 0, false, false⟩,
          ⟨2, 0, 10, false, false⟩] : List Dot).map fun d => d.x).sum /
        ((([⟨0, 0, 0, false, false⟩, ⟨1, 10, 0, false, false⟩,
          ⟨2, 0, 10, false, false⟩] : List Dot).length : ℝ)) ∧
      c.y = (([⟨0, 0, 0, false, false⟩, ⟨1, 10, 0, false, false⟩,
          ⟨2, 0, 10, false, false⟩] : List Dot).map fun d => d.y).sum /
        ((([⟨0, 0, 0, false, false⟩, ⟨1, 10, 0, false, false⟩,
          ⟨2, 0, 10, false, false⟩] : List Dot).length : ℝ)) ∧
      (∀ d ∈ ([⟨0, 0, 0, false, false⟩, ⟨1, 10, 0, false, false⟩,
          ⟨2, 0, 10, false, false⟩] : List Dot),
        Real.sqrt ((d.x - c.x) ^ 2 + (d.y - c.y) ^ 2) ≤ c.radius) ∧
      (∃ d ∈ ([⟨0, 0, 0, false, false⟩, ⟨1, 10, 0, false, false⟩,
          ⟨2, 0, 10, false, false⟩] : List Dot),
        Real.sqrt ((d.x - c.x) ^ 2 + (d.y - c.y) ^ 2) = c.radius)) :=
  ⟨by simp,
    C5_enclosingCircle.2.2
      [⟨0, 0, 0, false, false⟩, ⟨1, 10, 0, false, false⟩,
       ⟨2, 0, 10, false, false⟩] (by simp)⟩

/-- Outer radius of ring `i`, the formula instantiated by `getRings`. -/
def ringOuter (i : ℕ) : ℝ := initialRingRadius - (i : ℝ) * ringGap

/-- Inner radius of ring `i`, the formula instantiated by `getRings`. -/
def ringInner (i : ℕ) : ℝ := ringOuter i - ringGap

/-- The annuli `(ringInner i, ringOuter i]` are pairwise disjoint, over
all natural indices. -/
lemma ring_index_unique (d : ℝ) (a b : ℕ)
    (ha1 : ringInner a < d) (ha2 : d ≤ ringOuter a)
    (hb1 : ringInner b < d) (hb2 : d ≤ ringOuter b) : a = b := by
  by_contra hne
  rcases Nat.lt_or_ge a b with hab | hab
  · have hcast : ((a : ℝ) + 1) ≤ (b : ℝ) := by exact_mod_cast hab
    simp only [ringInner, ringOuter, initialRingRadius, ringGap] at ha1 hb2
    linarith
  · have hba : b < a := lt_of_le_of_ne hab fun h => hne h.symm
    have hcast : ((b : ℝ) + 1) ≤ (a : ℝ) := by exact_mod_cast hba
    simp only [ringInner, ringOuter, initialRingRadius, ringGap] at hb1 ha2
    linarith

/-- The ring search loop over the ten concrete rings, unfolded into the
chain of interval tests it performs. -/
lemma findRing_chain (d : ℝ) :
    findRingAux d getRings 0 =
      (if d ≤ 180 ∧ 162 < d then some 0
       else if d ≤ 162 ∧ 144 < d then some 1
       else if d ≤ 144 ∧ 126 < d then some 2
       else if d ≤ 126 ∧ 108 < d then some 3
       else if d ≤ 108 ∧ 90 < d then some 4
       else if d ≤ 90 ∧ 72 < d then some 5
       else if d ≤ 72 ∧ 54 < d then some 6
       else if d ≤ 54 ∧ 36 < d then some 7
       else if d ≤ 36 ∧ 18 < d then some 8
       else if d ≤ 18 ∧ 0 < d then some 9
       else none) := by
  norm_num [getRings, ringColors, initialRingRadius, ringGap, findRingAux,
    List.enum, List.enumFrom]

set_option maxHeartbeats 1600000 in
/-- The ring search returns an enclosing ring for every distance in
`(0, 180]` and `none` for distance `0` or beyond the outermost ring. -/
lemma findRing_spec (d : ℝ) :
    (0 < d → d ≤ 180 → ∃ i, findRingAux d getRings 0 = some i ∧
      ringInner i < d ∧ d ≤ ringOuter i) ∧
    ((d = 0 ∨ 180 < d) → findRingAux d getRings 0 = none) := by
  rw [findRing_chain]
  split_ifs with h0 h1 h2 h3 h4 h5 h6 h7 h8 h9
  · obtain ⟨hk1, hk2⟩ := h0
    refine ⟨fun hpos hle => ⟨0, rfl, ?_, ?_⟩, fun hcase => ?_⟩
    · simp only [ringInner, ringOuter, initialRingRadius, ringGap]; push_cast; linarith
    · simp only [ringOuter, initialRingRadius, ringGap]; push_cast; linarith
    · rcases hcase with hc | hc <;> linarith
  · obtain ⟨hk1, hk2⟩ := h1
    refine ⟨fun hpos hle => ⟨1, rfl, ?_, ?_⟩, fun hcase => ?_⟩
    · simp only [ringInner, ringOuter, initialRingRadius, ringGap]; push_cast; linarith
    · simp only [ringOuter, initialRingRadius, ringGap]; push_cast; linarith
    · rcases hcase with hc | hc <;> linarith
  · obtain ⟨hk1, hk2⟩ := h2
    refine ⟨fun hpos hle => ⟨2, rfl, ?_, ?_⟩, fun hcase => ?_⟩
    · simp only [ringInner, ringOuter, initialRingRadius, ringGap]; push_cast; linarith
    · simp only [ringOuter, initialRingRadius, ringGap]; push_cast; linarith
    · rcases hcase with hc | hc <;> linarith
  · obtain ⟨hk1, hk2⟩ := h3
    refine ⟨fun hpos hle => ⟨3, rfl, ?_, ?_⟩, fun hcase => ?_⟩
    · simp only [ringInner, ringOuter, initialRingRadius, ringGap]; push_cast; linarith
    · simp only [ringOuter, initialRingRadius, ringGap]; push_cast; linarith
    · rcases hcase with hc | hc <;> linarith
  · obtain ⟨hk1, hk2⟩ := h4
    refine ⟨fun hpos hle => ⟨4, rfl, ?_, ?_⟩, fun hcase => ?_⟩
    · simp only [ringInner, ringOuter, initialRingRadius, ringGap]; push_cast; linarith
    · simp only [ringOuter, initialRingRadius, ringGap]; push_cast; linarith
    · rcases hcase with hc | hc <;> linarith
  · obtain ⟨hk1, hk2⟩ := h5
    refine ⟨fun hpos hle => ⟨5, rfl, ?_, ?_⟩, fun hcase => ?_⟩
    · simp only [ringInner, ringOuter, initialRingRadius, ringGap]; push_cast; linarith
    · simp only [ringOuter, initialRingRadius, ringGap]; push_cast; linarith
    · rcases hcase with hc | hc <;> linarith
  · obtain ⟨hk1, hk2⟩ := h6
    refine ⟨fun hpos hle => ⟨6, rfl, ?_, ?_⟩, fun hcase => ?_⟩
    · simp only [ringInner, ringOuter, initialRingRadius, ringGap]; push_cast; linarith
    · simp only [ringOuter, initialRingRadius, ringGap]; push_cast; linarith
    · rcases hcase with hc | hc <;> linarith
  · obtain ⟨hk1, hk2⟩ := h7
    refine ⟨fun hpos hle => ⟨7, rfl, ?_, ?_⟩, fun hcase => ?_⟩
    · simp only [ringInner, ringOuter, initialRingRadius, ringGap]; push_cast; linarith
    · simp only [ringOuter, initialRingRadius, ringGap]; push_cast; linarith
    · rcases hcase with hc | hc <;> linarith
  · obtain ⟨hk1, hk2⟩ := h8
    refine ⟨fun hpos hle => ⟨8, rfl, ?_, ?_⟩, fun hcase => ?_⟩
    · simp only [ringInner, ringOuter, initialRingRadius, ringGap]; push_cast; linarith
    · simp only [ringOuter, initialRingRadius, ringGap]; push_cast; linarith
    · rcases hcase with hc | hc <;> linarith
  · obtain ⟨hk1, hk2⟩ := h9
    refine ⟨fun hpos hle => ⟨9, rfl, ?_, ?_⟩, fun hcase => ?_⟩
    · simp only [ringInner, ringOuter, initialRingRadius, ringGap]; push_cast; linarith
    · simp only [ringOuter, initialRingRadius, ringGap]; push_cast; linarith
    · rcases hcase with hc | hc <;> linarith
  · refine ⟨fun hpos hle => ?_, fun _ => rfl⟩
    exfalso
    push_neg at h0 h1 h2 h3 h4 h5 h6 h7 h8 h9
    have i0 := h0 hle
    have i1 := h1 i0
    have i2 := h2 i1
    have i3 := h3 i2
    have i4 := h4 i3
    have i5 := h5 i4
    have i6 := h6 i5
    have i7 := h7 i6
    have i8 := h8 i7
    have i9 := h9 i8
    linarith

/-- C6: `ringAt` partitions the plane — every point whose distance `d`
from the board origin satisfies `0 < d ≤ outerRadius 0` lies in exactly
one annulus `(ringInner i, ringOuter i]` and `getRingAtPoint` returns
that `i`; at the exact center (`d = 0`) or beyond the outermost ring it
returns `none`. -/
theorem C6_ringPartition (x y : ℝ) :
    (0 < Real.sqrt (x * x + y * y) → Real.sqrt (x * x + y * y) ≤ ringOuter 0 →
      ∃ i, getRingAtPoint x y = some i ∧
        ringInner i < Real.sqrt (x * x + y * y) ∧
        Real.sqrt (x * x + y * y) ≤ ringOuter i ∧
        ∀ j : ℕ, ringInner j < Real.sqrt (x * x + y * y) →
          Real.sqrt (x * x + y * y) ≤ ringOuter j → j = i) ∧
    ((Real.sqrt (x * x + y * y) = 0 ∨ ringOuter 0 < Real.sqrt (x * x + y * y)) →
      getRingAtPoint x y = none) := by
  have hs := findRing_spec (Real.sqrt (x * x + y * y))
  have houter : ringOuter 0 = 180 := by
    simp [ringOuter, initialRingRadius, ringGap]
  constructor
  · intro h1 h2
    rw [houter] at h2
    obtain ⟨i, hi, hlo, hhi⟩ := hs.1 h1 h2
    exact ⟨i, hi, hlo, hhi, fun j hj1 hj2 => ring_index_unique _ j i hj1 hj2 hlo hhi⟩
  · intro hcase
    rw [houter] at hcase
    exact hs.2 hcase

/-- Witness for C6 at the point `(100, 0)`, which lies in ring 4. -/
theorem C6_ringPartition_witness :
    0 < Real.sqrt ((100 : ℝ) * 100 + 0 * 0) ∧
    Real.sqrt ((100 : ℝ) * 100 + 0 * 0) ≤ ringOuter 0 ∧
    ∃ i, getRingAtPoint 100 0 = some i ∧
      ringInner i < Real.sqrt ((100 : ℝ) * 100 + 0 * 0) ∧
      Real.sqrt ((100 : ℝ) * 100 + 0 * 0) ≤ ringOuter i ∧
      ∀ j : ℕ, ringInner j < Real.sqrt ((100 : ℝ) * 100 + 0 * 0) →
        Real.sqrt ((100 : ℝ) * 100 + 0 * 0) ≤ ringOuter j → j = i := by
  have h100 : Real.sqrt ((100 : ℝ) * 100 + 0 * 0) = 100 := by
    rw [show ((100 : ℝ) * 100 + 0 * 0) = 100 ^ 2 by norm_num]
    exact Real.sqrt_sq (by norm_num)
  have hpos : 0 < Real.sqrt ((100 : ℝ) * 100 + 0 * 0) := by rw [h100]; norm_num
  have hle : Real.sqrt ((100 : ℝ) * 100 + 0 * 0) ≤ ringOuter 0 := by
    rw [h100]
    simp only [ringOuter, initialRingRadius, ringGap]
    norm_num
  exact ⟨hpos, hle, (C6_ringPartition 100 0).1 hpos hle⟩

/-- C1 counterexample: a pinch-move step is not pivot-preserving at the
two-finger midpoint. From transform `{x 0, y 0, scale 1}` with recorded
distance `100` and midpoint `(150, 0)`, moving the touches to `(50, 0)`
and `(250, 0)` (distance `200`, same midpoint) doubles the scale as the
claim says, but the board point `(150, 0)` that was under the midpoint
maps to `(300, 0)` afterwards, not to `(150, 0)`. -/
theorem C1_counterexample :
    (step ⟨0, 0⟩
      ⟨⟨0, 0, 1⟩, [], none, none, some 100, some ⟨150, 0⟩, none, none, none,
        none, true, 0⟩
      (.touchMove [⟨50, 0⟩, ⟨250, 0⟩])).transform.scale = 2 ∧
    screenToTarget 150 0
      (⟨⟨0, 0, 1⟩, [], none, none, some 100, some ⟨150, 0⟩, none, none, none,
        none, true, 0⟩ : State).transform = ⟨150, 0⟩ ∧
    targetToScreen 150 0
      (step ⟨0, 0⟩
        ⟨⟨0, 0, 1⟩, [], none, none, some 100, some ⟨150, 0⟩, none, none, none,
          none, true, 0⟩
        (.touchMove [⟨50, 0⟩, ⟨250, 0⟩])).transform ≠ ⟨150, 0⟩ := by
  have hdist : getDistance (50 : ℝ) 0 250 0 = 200 := by
    simp only [getDistance]
    rw [show ((250 : ℝ) - 50) ^ 2 + ((0 : ℝ) - 0) ^ 2 = 200 ^ 2 by norm_num]
    exact Real.sqrt_sq (by norm_num)
  refine ⟨?_, ?_, ?_⟩
  · simp only [step, handleTouchMove]
    norm_num [hdist, getCenter, min_def, max_def]
  · simp only [screenToTarget]
    norm_num
  · simp only [step, handleTouchMove]
    norm_num [hdist, getCenter, targetToScreen, min_def, max_def, Pt.mk.injEq]

/-- C1 amended: wheel zoom is pivot-preserving at the cursor when the
canvas rect sits at the client origin — the board point under the cursor
before the zoom maps back to the cursor afterwards, including when the
scale clamps. A pinch-move step instead multiplies the scale by
`newDistance / lastDistance` (clamped to `[0.1, 5]`) and translates the
offsets by the midpoint delta only, so the screen position preserved is
that of the board origin (shifted by the midpoint delta), not the board
point under the midpoint. -/
theorem C1_pivotBehaviour :
    (∀ (s : State) (cx cy dy : ℝ), s.transform.scale ≠ 0 →
      targetToScreen (screenToTarget cx cy s.transform).x
        (screenToTarget cx cy s.transform).y
        (step ⟨0, 0⟩ s (.wheel cx cy dy)).transform = ⟨cx, cy⟩) ∧
    (∀ (rect : Pt) (s : State) (ld : ℝ) (lc t1 t2 : Pt),
      s.lastTouchDistance = some ld → ld ≠ 0 → s.lastTouchCenter = some lc →
      (step rect s (.touchMove [t1, t2])).transform.scale =
        max 0.1 (min 5 (s.transform.scale *
          (getDistance (t1.x - rect.x) (t1.y - rect.y)
            (t2.x - rect.x) (t2.y - rect.y) / ld))) ∧
      (step rect s (.touchMove [t1, t2])).transform.x =
        s.transform.x + ((getCenter (t1.x - rect.x) (t1.y - rect.y)
          (t2.x - rect.x) (t2.y - rect.y)).x - lc.x) ∧
      (step rect s (.touchMove [t1, t2])).transform.y =
        s.transform.y + ((getCenter (t1.x - rect.x) (t1.y - rect.y)
          (t2.x - rect.x) (t2.y - rect.y)).y - lc.y) ∧
      targetToScreen 0 0 (step rect s (.touchMove [t1, t2])).transform =
        ⟨(targetToScreen 0 0 s.transform).x +
            ((getCenter (t1.x - rect.x) (t1.y - rect.y)
              (t2.x - rect.x) (t2.y - rect.y)).x - lc.x),
          (targetToScreen 0 0 s.transform).y +
            ((getCenter (t1.x - rect.x) (t1.y - rect.y)
              (t2.x - rect.x) (t2.y - rect.y)).y - lc.y)⟩) := by
  constructor
  · intro s cx cy dy hscale
    simp only [step, handleWheel, screenToTarget, targetToScreen, Pt.mk.injEq]
    constructor <;> ring
  · intro rect s ld lc t1 t2 hld hne hlc
    simp only [step, handleTouchMove, hld, hlc]
    rw [if_pos hne]
    refine ⟨rfl, rfl, rfl, ?_⟩
    simp only [targetToScreen, Pt.mk.injEq]
    constructor <;> ring

/-- Witness for C1 amended: a wheel zoom-in at cursor `(7, 8)` over the
transform `{x 10, y 20, scale 1}`, and a pinch step from recorded
distance 1 and midpoint `(0, 0)`. -/
theorem C1_pivotBehaviour_witness :
    ((⟨⟨10, 20, 1⟩, [], none, none, none, none, none, none, none, none,
        false, 0⟩ : State).transform.scale ≠ 0 ∧
      targetToScreen
        (screenToTarget 7 8
          (⟨⟨10, 20, 1⟩, [], none, none, none, none, none, none, none, none,
            false, 0⟩ : State).transform).x
        (screenToTarget 7 8
          (⟨⟨10, 20, 1⟩, [], none, none, none, none, none, none, none, none,
            false, 0⟩ : State).transform).y
        (step ⟨0, 0⟩
          ⟨⟨10, 20, 1⟩, [], none, none, none, none, none, none, none, none,
            false, 0⟩ (.wheel 7 8 (-1))).transform = ⟨7, 8⟩) ∧
    ((1 : ℝ) ≠ 0 ∧
      (step ⟨0, 0⟩
        ⟨⟨10, 20, 1⟩, [], none, none, some 1, some ⟨0, 0⟩, none, none, none,
          none, true, 0⟩ (.touchMove [⟨1, 0⟩, ⟨3, 0⟩])).transform.scale =
        max 0.1 (min 5
          ((⟨⟨10, 20, 1⟩, [], none, none, some 1, some ⟨0, 0⟩, none, none,
              none, none, true, 0⟩ : State).transform.scale *
            (getDistance ((1:ℝ) - 0) ((0:ℝ) - 0) ((3:ℝ) - 0) ((0:ℝ) - 0) / 1)))) :=
  ⟨⟨by norm_num,
    C1_pivotBehaviour.1
      ⟨⟨10, 20, 1⟩, [], none, none, none, none, none, none, none, none,
        false, 0⟩ 7 8 (-1) (by norm_num)⟩,
   ⟨by norm_num,
    (C1_pivotBehaviour.2 ⟨0, 0⟩
      ⟨⟨10, 20, 1⟩, [], none, none, some 1, some ⟨0, 0⟩, none, none, none,
        none, true, 0⟩ 1 ⟨0, 0⟩ ⟨1, 0⟩ ⟨3, 0⟩ rfl (by norm_num) rfl).1⟩⟩

end

end Archery
